import Mathlib

/-!
Verification of the Jam session synchronization engine of the monochrome
music player: the session repository (`jamApi` in `js/jam/api.js`) and the
sync state machine (`JamSyncManager` in `js/jam/sync.js`), shallowly
embedded as pure Lean functions over explicit state and effect traces.
-/

namespace Jam

/-- A track descriptor. Reconciliation compares tracks by `id`; queue
comparison in the source is deep value comparison (`JSON.stringify`),
modelled as structural equality. -/
structure Track where
  id : String
  title : String
deriving DecidableEq

/-- The persisted session record (`jam_sessions` collection). JS fields
that may be `null`/`undefined` are `Option`; `position` is `none` when the
field is absent or not a number (the source checks
`position !== undefined && typeof position === 'number'`). -/
structure SessionRecord where
  id : String
  host : String
  current_track : Option Track
  playback_state : String
  position : Option ℚ
  queue : Option (List Track)
  allow_participant_queueing : Option Bool
  participants : List String
  token : String
deriving DecidableEq

/-- The remote store: a list of session records keyed by `id`. -/
abbrev Store := List SessionRecord

/-- `pb.collection('jam_sessions').getOne(sessionId)`: first record whose
id matches, `none` when the id does not resolve (PocketBase 404). -/
def storeGet (store : Store) (sid : String) : Option SessionRecord :=
  List.find? (fun r => r.id = sid) store

/-- Persist new participants for record `sid`, other records untouched. -/
def storeSetParticipants (store : Store) (sid : String) (ps : List String) : Store :=
  List.map (fun r => if r.id = sid then { r with participants := ps } else r) store

/-- Delete record `sid` from the store. -/
def storeDelete (store : Store) (sid : String) : Store :=
  List.filter (fun r => ¬(r.id = sid)) store

/-- Writes issued against the store by a repository operation. -/
inductive StoreWrite where
  | createRec (r : SessionRecord)
  | setParticipants (sid : String) (ps : List String)
  | deleteRec (sid : String)
deriving DecidableEq

/-- Errors surfaced by repository operations. -/
inductive JamError where
  | authRequired
  | sessionNotFound
deriving DecidableEq

/-! ### Invite-token generation

`js/jam/api.js` line 15:
`Math.random().toString(36).substring(2, 15) + Math.random().toString(36).substring(2, 15)`.
A `Math.random()` value in `[0,1)` is modelled by the digit list of its
base-36 fractional expansion in shortest form (no trailing zero digits):
`toString(36)` renders `0` as `"0"` and any other value as `"0."` followed
by those digits. -/

/-- Base-36 digit to its character: `0`-`9` then `a`-`z`. -/
def digitChar36 (d : Fin 36) : Char :=
  if d.val < 10 then Char.ofNat (48 + d.val) else Char.ofNat (87 + d.val)

/-- `x.toString(36)` for `x` in `[0,1)` with fractional digits `ds`. -/
def toString36frac (ds : List (Fin 36)) : String :=
  if ds = [] then "0" else "0." ++ String.mk (List.map digitChar36 ds)

/-- JavaScript `s.substring(a, b)` for `a ≤ b` (clamped to the length). -/
def jsSubstring (s : String) (a b : Nat) : String :=
  String.mk (List.take (b - a) (List.drop a s.data))

/-- One half of the token: `Math.random().toString(36).substring(2, 15)`. -/
def tokenHalf (ds : List (Fin 36)) : String :=
  jsSubstring (toString36frac ds) 2 15

/-- The invite token generated by `createSession`, as a function of the two
random draws' digit expansions. -/
def generateToken (d1 d2 : List (Fin 36)) : String :=
  tokenHalf d1 ++ tokenHalf d2

/-- `jamApi.createSession`: requires an authenticated user, generates the
token from two random draws, creates the record with the caller as host and
sole participant. `newId` is the store-assigned record id. -/
def createSession (user : Option String) (track : Option Track) (state : String)
    (position : ℚ) (queue : List Track) (apq : Bool)
    (d1 d2 : List (Fin 36)) (newId : String) :
    Except JamError (SessionRecord × List StoreWrite) :=
  match user with
  | none => .error .authRequired
  | some uid =>
    let rec' : SessionRecord :=
      { id := newId, host := uid, current_track := track, playback_state := state,
        position := some position, queue := some queue,
        allow_participant_queueing := some apq,
        participants := [uid], token := generateToken d1 d2 }
    .ok (rec', [.createRec rec'])

/-- `jamApi.joinSession`: fetch the record; add the caller to
`participants` (with a store write) only when not already a member; errors
from the fetch propagate to the caller (logged and rethrown). -/
def joinSession (user : Option String) (store : Store) (sid : String) :
    Except JamError (SessionRecord × Store × List StoreWrite) :=
  match user with
  | none => .error .authRequired
  | some uid =>
    match storeGet store sid with
    | none => .error .sessionNotFound
    | some record =>
      if uid ∈ record.participants then
        .ok (record, store, [])
      else
        let ps := record.participants ++ [uid]
        .ok (record, storeSetParticipants store sid ps, [.setParticipants sid ps])

/-- `jamApi.leaveSession`: best-effort; every failure (unauthenticated
caller, missing record) is caught and absorbed, so the operation is a total
function on the store. Removes the caller from `participants`; deletes the
record when the result is empty, otherwise persists the reduced set. -/
def leaveSession (user : Option String) (store : Store) (sid : String) :
    Store × List StoreWrite :=
  match user with
  | none => (store, [])
  | some uid =>
    match storeGet store sid with
    | none => (store, [])
    | some record =>
      let ps := List.filter (fun i => ¬(i = uid)) record.participants
      if ps = [] then
        (storeDelete store sid, [.deleteRec sid])
      else
        (storeSetParticipants store sid ps, [.setParticipants sid ps])

/-! ### The audio transport (Player)

The playback engine is not part of the Jam subsystem's source; the spec
treats it as an external collaborator with a fixed capability interface. -/

/-- Modelled from the spec: the audio transport interface (spec section 6)
— `currentTrack`, `queue`, `currentQueueIndex`, `currentTime`, `paused`,
with operations `setQueue`, `playTrackFromQueue`, `play`, `pause`. The
Player implementation itself is outside the Jam sources. -/
structure Player where
  currentTrack : Option Track
  queue : List Track
  currentQueueIndex : Int
  paused : Bool
  currentTime : ℚ
deriving DecidableEq

/-- Modelled from the spec: `setQueue(tracks, startIndex)` is the queue
replace operation — it replaces the queue and the current index and touches
no other playback state. -/
def Player.setQueue (p : Player) (tracks : List Track) (startIndex : Int) : Player :=
  { p with queue := tracks, currentQueueIndex := startIndex }

/-- Modelled from the spec: `playTrackFromQueue(index, startPositionSeconds)`
loads the track at `index` of the queue and starts playing it at the given
position. -/
def Player.playTrackFromQueue (p : Player) (index : Nat) (pos : ℚ) : Player :=
  { p with currentTrack := p.queue[index]?, currentQueueIndex := (index : Int),
           currentTime := pos, paused := false }

/-- Local state of a `JamSyncManager` plus its player. `subscribed` models
whether the `unsubscribe` handle is set. -/
structure SyncState where
  player : Player
  activeSessionId : Option String
  isHost : Bool
  isApplyingUpdate : Bool
  allowParticipantQueueing : Bool
  subscribed : Bool
deriving DecidableEq

/-- Partial update payload passed to `broadcastStateUpdate` /
`updateSessionState`; absent fields are `none`. -/
structure UpdateData where
  current_track : Option Track
  playback_state : Option String
  position : Option ℚ
  queue : Option (List Track)
  allow_participant_queueing : Option Bool
deriving DecidableEq

/-- Observable effects of a sync-manager operation, in order: store
traffic, subscription management, UI events, and audio-transport calls.
`storeUpdate` is an attempted store write (the repository absorbs store
failures, so a failed write differs only in logging). `playTrackFailed` and
`playFailed` record a rejected `playTrackFromQueue` / `audio.play()`. -/
inductive Eff where
  | storeCreate (sid : String)
  | storeJoin (sid : String)
  | storeLeave (sid : String)
  | storeUpdate (sid : String) (data : UpdateData)
  | subscribed
  | unsubscribed
  | uiEvent (name : String)
  | setQueueCall (q : List Track) (idx : Int)
  | playTrackCall (idx : Nat) (pos : ℚ)
  | playTrackFailed
  | playCall
  | playFailed
  | pauseCall
  | seekCall (pos : ℚ)
deriving DecidableEq

/-- `broadcastStateUpdate(data)`: a silent no-op without an active session
or while `_isApplyingUpdate` is set; otherwise one store write via
`updateSessionState` (whose own catch absorbs store failures, so local
state is never affected and no error escapes). -/
def broadcastStateUpdate (s : SyncState) (data : UpdateData) : SyncState × List Eff :=
  match s.activeSessionId with
  | none => (s, [])
  | some sid => if s.isApplyingUpdate then (s, []) else (s, [.storeUpdate sid data])

/-! ### Reconciliation (`applySessionState`), step by step -/

/-- Step: sync the host queue-control flag — update the local mirror and
notify the UI when the record carries a differing value. -/
def syncPermissions (s : SyncState) (r : SessionRecord) : SyncState × List Eff :=
  match r.allow_participant_queueing with
  | none => (s, [])
  | some b =>
    if s.allowParticipantQueueing = b then (s, [])
    else ({ s with allowParticipantQueueing := b }, [.uiEvent "jam-permissions-changed"])

/-- Step: sync the queue — replace the local queue wholesale (index 0) when
the record delivers a queue that differs by deep value comparison. -/
def syncQueue (s : SyncState) (r : SessionRecord) : SyncState × List Eff :=
  match r.queue with
  | none => (s, [])
  | some q =>
    if q = s.player.queue then (s, [])
    else ({ s with player := s.player.setQueue q 0 }, [.setQueueCall q 0])

/-- The `trackIndex` computation of the track-change step: look the track
id up in the incoming queue first (`trackIndex` stays `-1`, i.e. `none`,
when the record carries no queue), and on failure fall back to the player's
queue — which the preceding queue-sync step has already updated. -/
def trackLookupIndex (s : SyncState) (r : SessionRecord) (tid : String) : Option Nat :=
  match (match r.queue with
         | some q => List.findIdx? (fun tr => tr.id = tid) q
         | none => none : Option Nat) with
  | some i => some i
  | none => List.findIdx? (fun tr => tr.id = tid) s.player.queue

/-- Step: sync the current track. When the record's track differs by id
from the locally loaded one, locate it via `trackLookupIndex` and play that
index from position 0; when absent from both queues, replace the queue with
the singleton `[currentTrack]` and play index 0. `ptFails` is the
environment oracle for a rejected `playTrackFromQueue` promise: the
rejection propagates (`Except.error`) to the surrounding catch, carrying
the state reached so far. -/
def syncTrack (s : SyncState) (r : SessionRecord) (ptFails : Bool) :
    Except (SyncState × List Eff) (SyncState × List Eff) :=
  match r.current_track with
  | none => .ok (s, [])
  | some t =>
    if (match s.player.currentTrack with
        | none => true
        | some lt => !(lt.id = t.id : Bool)) then
      match trackLookupIndex s r t.id with
      | some i =>
        if ptFails then .error (s, [.playTrackFailed])
        else .ok ({ s with player := s.player.playTrackFromQueue i 0 }, [.playTrackCall i 0])
      | none =>
        if ptFails then
          .error ({ s with player := s.player.setQueue [t] 0 },
                  [.setQueueCall [t] 0, .playTrackFailed])
        else
          .ok ({ s with player := (s.player.setQueue [t] 0).playTrackFromQueue 0 0 },
               [.setQueueCall [t] 0, .playTrackCall 0 0])
    else .ok (s, [])

/-- Step: drift correction — force-seek to the remote position exactly when
the record carries a numeric position differing from the local playback
position by strictly more than 2 seconds. -/
def syncPosition (s : SyncState) (r : SessionRecord) : SyncState × List Eff :=
  match r.position with
  | none => (s, [])
  | some pos =>
    if |s.player.currentTime - pos| > 2 then
      ({ s with player := { s.player with currentTime := pos } }, [.seekCall pos])
    else (s, [])

/-- Step: reconcile play/pause. A rejected `audio.play()` promise
(`pFails`) is caught inline and only logged: playback stays paused and the
procedure continues normally. -/
def syncPlayPause (s : SyncState) (r : SessionRecord) (pFails : Bool) : SyncState × List Eff :=
  let shouldPlay := r.playback_state = "playing"
  if shouldPlay ∧ s.player.paused then
    if pFails then (s, [.playFailed])
    else ({ s with player := { s.player with paused := false } }, [.playCall])
  else if ¬shouldPlay ∧ ¬s.player.paused then
    ({ s with player := { s.player with paused := true } }, [.pauseCall])
  else (s, [])

/-- `applySessionState(record)`: set the `_isApplyingUpdate` guard, run the
reconciliation steps, absorb any exception (logged), and clear the guard in
`finally` on every exit path. -/
def applySessionState (s : SyncState) (r : SessionRecord) (ptFails pFails : Bool) :
    SyncState × List Eff :=
  let s0 := { s with isApplyingUpdate := true }
  let p1 := syncPermissions s0 r
  let p2 := syncQueue p1.1 r
  match syncTrack p2.1 r ptFails with
  | .error pE =>
    ({ pE.1 with isApplyingUpdate := false }, p1.2 ++ p2.2 ++ pE.2)
  | .ok p3 =>
    let p4 := syncPosition p3.1 r
    let p5 := syncPlayPause p4.1 r pFails
    ({ p5.1 with isApplyingUpdate := false }, p1.2 ++ p2.2 ++ p3.2 ++ p4.2 ++ p5.2)

/-- The intermediate states of one `applySessionState` run: the state after
setting the guard and the state after each reconciliation step — exactly
the states a player-event hook fired by a reconciliation mutation can
observe. -/
def reconTrace (s : SyncState) (r : SessionRecord) (ptFails pFails : Bool) : List SyncState :=
  let s0 := { s with isApplyingUpdate := true }
  let p1 := syncPermissions s0 r
  let p2 := syncQueue p1.1 r
  match syncTrack p2.1 r ptFails with
  | .error pE => [s0, p1.1, p2.1, pE.1]
  | .ok p3 =>
    let p4 := syncPosition p3.1 r
    let p5 := syncPlayPause p4.1 r pFails
    [s0, p1.1, p2.1, p3.1, p4.1, p5.1]

/-! ### The subscription handler and session lifecycle -/

/-- `JamSyncManager.leaveSession`: best-effort store departure, then
unsubscribe, then clear the local handle and notify the UI; a no-op with no
active session. -/
def syncLeaveSession (s : SyncState) : SyncState × List Eff :=
  match s.activeSessionId with
  | none => (s, [])
  | some sid =>
    ({ s with activeSessionId := none, isHost := false, subscribed := false },
     [.storeLeave sid] ++ (if s.subscribed then [.unsubscribed] else [])
       ++ [.uiEvent "jam-session-left"])

/-- The subscription callback of `subscribeToSession` on a delivered event.
Non-hosts apply every `update` as a full record; the host only arbitrates
queue changes: with participant queueing allowed it adopts the delivered
queue under the guard (preserving a non-negative current play index,
else 0), otherwise it rebroadcasts its own queue. A `delete` event tears
the session down. -/
def handleEvent (s : SyncState) (action : String) (r : SessionRecord)
    (ptFails pFails : Bool) : SyncState × List Eff :=
  if action = "update" then
    if ¬s.isHost then applySessionState s r ptFails pFails
    else
      match r.queue with
      | none => (s, [])
      | some q =>
        if q = s.player.queue then (s, [])
        else if s.allowParticipantQueueing then
          let sG := { s with isApplyingUpdate := true }
          let startIdx : Int :=
            if s.player.currentQueueIndex ≥ 0 then s.player.currentQueueIndex else 0
          let sQ := { sG with player := sG.player.setQueue q startIdx }
          ({ sQ with isApplyingUpdate := false }, [.setQueueCall q startIdx])
        else
          broadcastStateUpdate s
            { current_track := none, playback_state := none, position := none,
              queue := some s.player.queue, allow_participant_queueing := none }
  else if action = "delete" then
    syncLeaveSession s
  else (s, [])

/-- `JamSyncManager.startSession` (success path of the repository call):
with an active session it returns `undefined` immediately, creating and
subscribing to nothing; otherwise it creates the session, becomes host,
subscribes, and returns the new id. -/
def syncStartSession (s : SyncState) (newId : String) :
    SyncState × List Eff × Option String :=
  match s.activeSessionId with
  | some _ => (s, [], none)
  | none =>
    ({ s with activeSessionId := some newId, isHost := true, subscribed := true },
     [.storeCreate newId, .subscribed, .uiEvent "jam-session-started"], some newId)

/-- `JamSyncManager.joinSession`: a no-op when `sid` is already the active
session; otherwise tear down any other active session first, then join
through the repository (`found` is the fetched record, `none` when the id
does not resolve — that error is logged and rethrown, modelled by a `none`
result after the teardown), apply the initial state, and subscribe. -/
def syncJoinSession (s : SyncState) (sid : String) (found : Option SessionRecord)
    (ptFails pFails : Bool) : SyncState × List Eff × Option String :=
  if s.activeSessionId = some sid then (s, [], none)
  else
    let pL :=
      match s.activeSessionId with
      | some _ => syncLeaveSession s
      | none => (s, [])
    match found with
    | none => (pL.1, pL.2, none)
    | some record =>
      let s2 := { pL.1 with activeSessionId := some sid, isHost := false }
      let p3 := applySessionState s2 record ptFails pFails
      ({ p3.1 with subscribed := true },
       pL.2 ++ [.storeJoin sid] ++ p3.2 ++ [.subscribed, .uiEvent "jam-session-joined"],
       some sid)

/-! ### Store helper lemmas -/

lemma storeGet_storeSetParticipants (store : Store) (sid : String) (ps : List String) :
    storeGet (storeSetParticipants store sid ps) sid
      = Option.map (fun r => { r with participants := ps }) (storeGet store sid) := by
  induction store with
  | nil => rfl
  | cons r rest ih =>
    by_cases h : r.id = sid
    · simp [storeGet, storeSetParticipants, List.find?_cons, h]
    · simpa [storeGet, storeSetParticipants, List.find?_cons, h] using ih

lemma storeGet_storeDelete (store : Store) (sid : String) :
    storeGet (storeDelete store sid) sid = none := by
  rw [storeGet, List.find?_eq_none]
  intro r hr
  simp only [storeDelete, List.mem_filter] at hr
  simpa using hr.2

/-- Claim C6: `joinSession` is idempotent — when the caller's id is already
a member of `participants` it issues no store write and leaves the store
(hence the participants set) unchanged, acquiring no duplicate entry — and
on an id that does not resolve it fails with `SessionNotFound`, the error
propagating to the caller. -/
theorem joinSession_idempotent_and_notFound (uid : String) (store : Store) (sid : String) :
    (∀ record, storeGet store sid = some record → uid ∈ record.participants →
        joinSession (some uid) store sid = .ok (record, store, []))
    ∧ (storeGet store sid = none →
        joinSession (some uid) store sid = .error .sessionNotFound) := by
  constructor
  · intro record hget hmem
    simp [joinSession, hget, hmem]
  · intro hget
    simp [joinSession, hget]

theorem joinSession_idempotent_and_notFound_witness :
    joinSession (some "u")
        [{ id := "s1", host := "u", current_track := none, playback_state := "paused",
           position := some 0, queue := some [], allow_participant_queueing := some true,
           participants := ["u", "v"], token := "tok" }] "s1"
      = .ok ({ id := "s1", host := "u", current_track := none, playback_state := "paused",
               position := some 0, queue := some [], allow_participant_queueing := some true,
               participants := ["u", "v"], token := "tok" },
             [{ id := "s1", host := "u", current_track := none, playback_state := "paused",
                position := some 0, queue := some [], allow_participant_queueing := some true,
                participants := ["u", "v"], token := "tok" }], [])
    ∧ joinSession (some "u") [] "s1" = .error .sessionNotFound :=
  ⟨(joinSession_idempotent_and_notFound "u" _ "s1").1 _ (by decide) (by decide),
   (joinSession_idempotent_and_notFound "u" [] "s1").2 (by decide)⟩

/-- Claim C7: `leaveSession` removes the caller from `participants`; when
the resulting set is empty the record is deleted (no orphaned session under
that id), otherwise the reduced set is persisted with every other
participant's multiplicity unchanged; and the operation is total — in
particular on a missing record it returns with no store write instead of
throwing. -/
theorem leaveSession_removes_or_deletes (uid : String) (store : Store) (sid : String) :
    (storeGet store sid = none → leaveSession (some uid) store sid = (store, []))
    ∧ ∀ record, storeGet store sid = some record →
        uid ∉ List.filter (fun i => ¬(i = uid)) record.participants
        ∧ (∀ p, p ≠ uid →
             List.count p (List.filter (fun i => ¬(i = uid)) record.participants)
               = List.count p record.participants)
        ∧ (List.filter (fun i => ¬(i = uid)) record.participants = [] →
             leaveSession (some uid) store sid = (storeDelete store sid, [.deleteRec sid])
             ∧ storeGet (leaveSession (some uid) store sid).1 sid = none)
        ∧ (List.filter (fun i => ¬(i = uid)) record.participants ≠ [] →
             leaveSession (some uid) store sid
               = (storeSetParticipants store sid
                    (List.filter (fun i => ¬(i = uid)) record.participants),
                  [.setParticipants sid
                    (List.filter (fun i => ¬(i = uid)) record.participants)])
             ∧ storeGet (leaveSession (some uid) store sid).1 sid
               = some { record with
                        participants :=
                          List.filter (fun i => ¬(i = uid)) record.participants }) := by
  constructor
  · intro hget
    simp [leaveSession, hget]
  · intro record hget
    refine ⟨by simp, fun p hp => List.count_filter (by simpa using hp), ?_, ?_⟩
    · intro hempty
      have hempty' : ∀ x ∈ record.participants, x = uid := by simpa using hempty
      have hlv : leaveSession (some uid) store sid = (storeDelete store sid, [.deleteRec sid]) := by
        simp [leaveSession, hget]
        exact hempty'
      exact ⟨hlv, by rw [hlv]; exact storeGet_storeDelete store sid⟩
    · intro hne
      have hne' : ∃ x ∈ record.participants, ¬(x = uid) := by simpa using hne
      have hlv : leaveSession (some uid) store sid
          = (storeSetParticipants store sid
               (List.filter (fun i => ¬(i = uid)) record.participants),
             [.setParticipants sid
               (List.filter (fun i => ¬(i = uid)) record.participants)]) := by
        simp [leaveSession, hget, hne']
      refine ⟨hlv, ?_⟩
      rw [hlv]
      simp [storeGet_storeSetParticipants, hget]

theorem leaveSession_removes_or_deletes_witness :
    leaveSession (some "u")
        [{ id := "s1", host := "h", current_track := none, playback_state := "paused",
           position := some 0, queue := some [], allow_participant_queueing := some true,
           participants := ["h", "u"], token := "tok" }] "s1"
      = (storeSetParticipants
           [{ id := "s1", host := "h", current_track := none, playback_state := "paused",
              position := some 0, queue := some [], allow_participant_queueing := some true,
              participants := ["h", "u"], token := "tok" }] "s1"
           (List.filter (fun i => ¬(i = "u")) ["h", "u"]),
         [.setParticipants "s1" (List.filter (fun i => ¬(i = "u")) ["h", "u"])]) :=
  (((leaveSession_removes_or_deletes "u" _ "s1").2
      { id := "s1", host := "h", current_track := none, playback_state := "paused",
        position := some 0, queue := some [], allow_participant_queueing := some true,
        participants := ["h", "u"], token := "tok" }
      (by decide)).2.2.2 (by decide)).1

/-! ### Token shape -/

lemma tokenHalf_data (ds : List (Fin 36)) :
    (tokenHalf ds).data = List.map digitChar36 (List.take 13 ds) := by
  by_cases h : ds = []
  · subst h; rfl
  · simp only [tokenHalf, jsSubstring, toString36frac, if_neg h]
    show List.take 13 (List.drop 2 ("0." ++ String.mk (List.map digitChar36 ds)).data)
        = List.map digitChar36 (List.take 13 ds)
    rw [String.data_append]
    show List.take 13 (List.drop 2 (['0', '.'] ++ List.map digitChar36 ds))
        = List.map digitChar36 (List.take 13 ds)
    rw [List.drop_append_of_le_length (by simp)]
    simp [List.map_take]

lemma generateToken_data (d1 d2 : List (Fin 36)) :
    (generateToken d1 d2).data
      = List.map digitChar36 (List.take 13 d1) ++ List.map digitChar36 (List.take 13 d2) := by
  rw [generateToken, String.data_append, tokenHalf_data, tokenHalf_data]

lemma generateToken_length (d1 d2 : List (Fin 36)) :
    (generateToken d1 d2).length = min 13 d1.length + min 13 d2.length := by
  have h : generateToken d1 d2
      = String.mk (List.map digitChar36 (List.take 13 d1)
                    ++ List.map digitChar36 (List.take 13 d2)) :=
    String.ext (generateToken_data d1 d2)
  rw [h, String.length_mk]
  simp

lemma digitChar36_alphanumeric (d : Fin 36) :
    ('0' ≤ digitChar36 d ∧ digitChar36 d ≤ '9')
      ∨ ('a' ≤ digitChar36 d ∧ digitChar36 d ≤ 'z') := by
  revert d; decide

/-- Claim C5, amended: the invite token generated by a successful
`createSession` call is the concatenation of two substrings — each of at
most 13 characters — of the base-36 fractional expansions of two
`Math.random()` draws: every character is drawn from the 36-symbol
lowercase-alphanumeric alphabet and the length is at most 26, but it is
not bounded below by 20 (short expansions give short tokens) and
uniqueness across sessions is only probabilistic — no uniqueness check is
performed, and equal draws yield equal tokens. -/
theorem createSession_token_shape (user : Option String) (track : Option Track)
    (state : String) (position : ℚ) (queue : List Track) (apq : Bool)
    (d1 d2 : List (Fin 36)) (newId : String) (r : SessionRecord) (w : List StoreWrite)
    (h : createSession user track state position queue apq d1 d2 newId = .ok (r, w)) :
    r.token = generateToken d1 d2
    ∧ r.token.length = min 13 d1.length + min 13 d2.length
    ∧ r.token.length ≤ 26
    ∧ ∀ c ∈ r.token.data,
        ('0' ≤ c ∧ c ≤ '9') ∨ ('a' ≤ c ∧ c ≤ 'z') := by
  have htok : r.token = generateToken d1 d2 := by
    cases user with
    | none => exact absurd h (by simp [createSession])
    | some uid =>
      simp only [createSession, Except.ok.injEq, Prod.mk.injEq] at h
      rw [← h.1]
  refine ⟨htok, ?_, ?_, ?_⟩
  · rw [htok, generateToken_length]
  · rw [htok, generateToken_length]
    have h1 : min 13 d1.length ≤ 13 := min_le_left _ _
    have h2 : min 13 d2.length ≤ 13 := min_le_left _ _
    omega
  · intro c hc
    rw [htok, generateToken_data] at hc
    rcases List.mem_append.mp hc with hm | hm <;>
      · obtain ⟨d, _, rfl⟩ := List.mem_map.mp hm
        exact digitChar36_alphanumeric d

theorem createSession_token_shape_witness :
    ({ id := "s1", host := "u", current_track := none, playback_state := "paused",
       position := some 0, queue := some [], allow_participant_queueing := some true,
       participants := ["u"], token := "ii" } : SessionRecord).token.length ≤ 26 :=
  (createSession_token_shape (some "u") none "paused" 0 [] true [18] [18] "s1"
     { id := "s1", host := "u", current_track := none, playback_state := "paused",
       position := some 0, queue := some [], allow_participant_queueing := some true,
       participants := ["u"], token := "ii" }
     [.createRec { id := "s1", host := "u", current_track := none, playback_state := "paused",
                   position := some 0, queue := some [], allow_participant_queueing := some true,
                   participants := ["u"], token := "ii" }]
     rfl).2.2.1

/-- Claim C5 counterexample: `createSession` with `Math.random()` drawing
`0.5` twice (base-36 expansion `"0.i"`) succeeds with the two-character
token `"ii"` — far below 20 characters — and a second call drawing the
same randoms produces the identical token, so the generated tokens are
neither guaranteed 20 characters long nor guaranteed unique. -/
theorem createSession_short_token_counterexample :
    Except.map (fun x => x.1.token)
        (createSession (some "u") none "paused" 0 [] true [18] [18] "s1") = .ok "ii"
    ∧ ¬ 20 ≤ ("ii" : String).length
    ∧ Except.map (fun x => x.1.token)
        (createSession (some "v") none "paused" 0 [] true [18] [18] "s2") = .ok "ii" :=
  ⟨rfl, by decide, rfl⟩

/-! ### Reconciliation step lemmas -/

/-- The queue the track-change lookup effectively consults: the delivered
queue when the record carries one (the player's queue already equals it
after the queue-sync step), the previously-local queue otherwise. -/
def effectiveLookupQueue (s : SyncState) (r : SessionRecord) : List Track :=
  match r.queue with
  | some q => q
  | none => s.player.queue

lemma syncPermissions_state (s : SyncState) (r : SessionRecord) :
    (syncPermissions s r).1.player = s.player
    ∧ (syncPermissions s r).1.isApplyingUpdate = s.isApplyingUpdate
    ∧ (syncPermissions s r).1.activeSessionId = s.activeSessionId := by
  cases hm : r.allow_participant_queueing with
  | none => simp [syncPermissions, hm]
  | some b =>
    by_cases hb : s.allowParticipantQueueing = b <;> simp [syncPermissions, hm, hb]

lemma syncQueue_state (s : SyncState) (r : SessionRecord) :
    (syncQueue s r).1.player.currentTrack = s.player.currentTrack
    ∧ (syncQueue s r).1.player.currentTime = s.player.currentTime
    ∧ (syncQueue s r).1.player.paused = s.player.paused
    ∧ (syncQueue s r).1.player.queue = effectiveLookupQueue s r
    ∧ (syncQueue s r).1.isApplyingUpdate = s.isApplyingUpdate
    ∧ (syncQueue s r).1.activeSessionId = s.activeSessionId
    ∧ (syncQueue s r).1.allowParticipantQueueing = s.allowParticipantQueueing := by
  cases hm : r.queue with
  | none => simp [syncQueue, effectiveLookupQueue, hm]
  | some q =>
    by_cases hq : q = s.player.queue <;>
      simp [syncQueue, effectiveLookupQueue, hm, hq, Player.setQueue]

lemma syncPosition_state (s : SyncState) (r : SessionRecord) :
    (syncPosition s r).1.player.currentTrack = s.player.currentTrack
    ∧ (syncPosition s r).1.player.paused = s.player.paused
    ∧ (syncPosition s r).1.player.queue = s.player.queue
    ∧ (syncPosition s r).1.isApplyingUpdate = s.isApplyingUpdate
    ∧ (syncPosition s r).1.activeSessionId = s.activeSessionId := by
  cases hm : r.position with
  | none => simp [syncPosition, hm]
  | some pos =>
    by_cases hgt : |s.player.currentTime - pos| > 2 <;> simp [syncPosition, hm, hgt]

lemma syncPlayPause_state (s : SyncState) (r : SessionRecord) (pf : Bool) :
    (syncPlayPause s r pf).1.player.currentTrack = s.player.currentTrack
    ∧ (syncPlayPause s r pf).1.player.currentTime = s.player.currentTime
    ∧ (syncPlayPause s r pf).1.player.queue = s.player.queue
    ∧ (syncPlayPause s r pf).1.isApplyingUpdate = s.isApplyingUpdate
    ∧ (syncPlayPause s r pf).1.activeSessionId = s.activeSessionId := by
  by_cases hsp : r.playback_state = "playing"
  · by_cases hp : s.player.paused <;> cases pf <;> simp [syncPlayPause, hsp, hp]
  · by_cases hp : s.player.paused <;> simp [syncPlayPause, hsp, hp]

lemma syncTrack_of_sameTrack (s : SyncState) (r : SessionRecord) (ptf : Bool)
    (h : ∀ t, r.current_track = some t →
        ∃ lt, s.player.currentTrack = some lt ∧ lt.id = t.id) :
    syncTrack s r ptf = .ok (s, []) := by
  cases hm : r.current_track with
  | none => simp [syncTrack, hm]
  | some t =>
    obtain ⟨lt, hlt, hid⟩ := h t hm
    simp [syncTrack, hm, hlt, hid]

lemma syncTrack_shape (s : SyncState) (r : SessionRecord) (ptf : Bool) :
    ∃ (p : Player) (e : List Eff),
      syncTrack s r ptf = .error ({ s with player := p }, e)
      ∨ syncTrack s r ptf = .ok ({ s with player := p }, e) := by
  unfold syncTrack
  repeat' split
  · exact ⟨s.player, [], .inr rfl⟩
  · exact ⟨s.player, [Eff.playTrackFailed], .inl rfl⟩
  · exact ⟨_, _, .inr rfl⟩
  · exact ⟨_, _, .inl rfl⟩
  · exact ⟨_, _, .inr rfl⟩
  · exact ⟨s.player, [], .inr rfl⟩

/-- Claim C1: an inbound `update` whose delivered queue differs by deep
value comparison from the host's local queue makes the host, with
`allowParticipantQueueing` true, replace its queue via the transport's
queue-replace operation at the preserved current play index (0 when the
index is negative) with no store write; with it false, leave all local
state unchanged and immediately rebroadcast its own queue to the store. -/
theorem host_queue_arbitration (s : SyncState) (r : SessionRecord) (q : List Track)
    (sid : String) (ptf pf : Bool)
    (hhost : s.isHost = true) (hsid : s.activeSessionId = some sid)
    (hguard : s.isApplyingUpdate = false) (hq : r.queue = some q)
    (hdiff : q ≠ s.player.queue) :
    (s.allowParticipantQueueing = true →
       handleEvent s "update" r ptf pf
         = ({ s with player := (s.player.setQueue q
                (if s.player.currentQueueIndex ≥ 0 then s.player.currentQueueIndex else 0)) },
            [.setQueueCall q
               (if s.player.currentQueueIndex ≥ 0 then s.player.currentQueueIndex else 0)]))
    ∧ (s.allowParticipantQueueing = false →
       handleEvent s "update" r ptf pf
         = (s, [.storeUpdate sid
                 { current_track := none, playback_state := none, position := none,
                   queue := some s.player.queue, allow_participant_queueing := none }])) := by
  constructor <;> intro hapq
  · simp [handleEvent, hhost, hq, hdiff, hapq, hguard]
  · simp [handleEvent, hhost, hq, hdiff, hapq, broadcastStateUpdate, hsid, hguard]

/-- Fixture for the host-arbitration witness: a host with an empty queue
and no loaded track. -/
def hostStateArb : SyncState :=
  { player := { currentTrack := none, queue := [], currentQueueIndex := -1,
                paused := true, currentTime := 0 },
    activeSessionId := some "s1", isHost := true, isApplyingUpdate := false,
    allowParticipantQueueing := true, subscribed := true }

/-- Fixture for the host-arbitration witness: a participant-written record
carrying a one-track queue. -/
def recArb : SessionRecord :=
  { id := "s1", host := "h", current_track := none, playback_state := "paused",
    position := none, queue := some [⟨"t", "T"⟩], allow_participant_queueing := none,
    participants := ["h"], token := "tok" }

theorem host_queue_arbitration_witness :
    handleEvent hostStateArb "update" recArb false false
      = ({ hostStateArb with
           player := (hostStateArb.player.setQueue [⟨"t", "T"⟩]
             (if hostStateArb.player.currentQueueIndex ≥ 0
              then hostStateArb.player.currentQueueIndex else 0)) },
         [.setQueueCall [⟨"t", "T"⟩]
            (if hostStateArb.player.currentQueueIndex ≥ 0
             then hostStateArb.player.currentQueueIndex else 0)]) :=
  (host_queue_arbitration hostStateArb recArb [⟨"t", "T"⟩] "s1" false false
      rfl rfl rfl rfl (by decide)).1 rfl

/-- Claim C8: while the local role is Host, processing an inbound `update`
event leaves the host's loaded track, play/pause state and playback
position untouched — no transport load/play/pause/seek is issued — for
every delivered record; only the queue (and its index) may change. -/
theorem host_update_frame (s : SyncState) (r : SessionRecord) (ptf pf : Bool)
    (hhost : s.isHost = true) :
    (handleEvent s "update" r ptf pf).1.player.currentTrack = s.player.currentTrack
    ∧ (handleEvent s "update" r ptf pf).1.player.paused = s.player.paused
    ∧ (handleEvent s "update" r ptf pf).1.player.currentTime = s.player.currentTime
    ∧ (∀ i p', Eff.playTrackCall i p' ∉ (handleEvent s "update" r ptf pf).2)
    ∧ Eff.playCall ∉ (handleEvent s "update" r ptf pf).2
    ∧ Eff.pauseCall ∉ (handleEvent s "update" r ptf pf).2
    ∧ (∀ p', Eff.seekCall p' ∉ (handleEvent s "update" r ptf pf).2) := by
  cases hq : r.queue with
  | none => simp [handleEvent, hhost, hq]
  | some q =>
    by_cases hqe : q = s.player.queue
    · simp [handleEvent, hhost, hq, hqe]
    · by_cases hapq : s.allowParticipantQueueing
      · simp [handleEvent, hhost, hq, hqe, hapq, Player.setQueue]
      · cases hsid : s.activeSessionId with
        | none =>
          simp [handleEvent, hhost, hq, hqe, hapq, broadcastStateUpdate, hsid]
        | some sid =>
          by_cases hg : s.isApplyingUpdate <;>
            simp [handleEvent, hhost, hq, hqe, hapq, broadcastStateUpdate, hsid, hg]

theorem host_update_frame_witness :
    (handleEvent
        { player := { currentTrack := some ⟨"x", "X"⟩, queue := [⟨"x", "X"⟩],
                      currentQueueIndex := 0, paused := false, currentTime := 7 },
          activeSessionId := some "s1", isHost := true, isApplyingUpdate := false,
          allowParticipantQueueing := false, subscribed := true }
        "update"
        { id := "s1", host := "h", current_track := some ⟨"t", "T"⟩,
          playback_state := "playing", position := some 0, queue := some [⟨"t", "T"⟩],
          allow_participant_queueing := none, participants := ["h"], token := "tok" }
        false false).1.player.currentTrack = some ⟨"x", "X"⟩ :=
  (host_update_frame _ _ false false rfl).1

lemma broadcast_noop_of_guard (s : SyncState) (d : UpdateData)
    (h : s.isApplyingUpdate = true) : broadcastStateUpdate s d = (s, []) := by
  cases hsid : s.activeSessionId <;> simp [broadcastStateUpdate, hsid, h]

/-- Claim C2: whenever the `_isApplyingUpdate` guard is set,
`broadcastStateUpdate` returns with no store write and no state change; the
guard is set at every intermediate state of `applySessionState` (the states
any playback hook fired by a reconciliation mutation can observe, listed by
`reconTrace`, whose last element the procedure's result provably extends
by clearing the guard); and it is set in the state observable during the
host's adoption of a participant queue — so no local mutation triggered by
applying a remote update is ever rebroadcast. -/
theorem guard_suppresses_rebroadcast :
    (∀ (s : SyncState) (d : UpdateData), s.isApplyingUpdate = true →
        broadcastStateUpdate s d = (s, []))
    ∧ (∀ (s : SyncState) (r : SessionRecord) (ptf pf : Bool),
        ∀ st ∈ reconTrace s r ptf pf,
          st.isApplyingUpdate = true ∧ ∀ d, broadcastStateUpdate st d = (st, []))
    ∧ (∀ (s : SyncState) (r : SessionRecord) (ptf pf : Bool),
        Option.map (fun st => ({ st with isApplyingUpdate := false } : SyncState))
            (reconTrace s r ptf pf).getLast?
          = some (applySessionState s r ptf pf).1)
    ∧ (∀ (s : SyncState) (q : List Track) (i : Int) (d : UpdateData),
        broadcastStateUpdate
            { s with isApplyingUpdate := true, player := s.player.setQueue q i } d
          = ({ s with isApplyingUpdate := true, player := s.player.setQueue q i }, [])) := by
  have hguards : ∀ (s : SyncState) (r : SessionRecord) (ptf pf : Bool),
      ∀ st ∈ reconTrace s r ptf pf, st.isApplyingUpdate = true := by
    intro s r ptf pf st hst
    have h0 : ({ s with isApplyingUpdate := true } : SyncState).isApplyingUpdate = true := rfl
    have h1 := (syncPermissions_state { s with isApplyingUpdate := true } r).2.1
    have h2 := (syncQueue_state (syncPermissions { s with isApplyingUpdate := true } r).1 r).2.2.2.2.1
    obtain ⟨p, e, htr | htr⟩ :=
      syncTrack_shape (syncQueue (syncPermissions { s with isApplyingUpdate := true } r).1 r).1 r ptf
    · rw [reconTrace, htr] at hst
      simp only [List.mem_cons, List.mem_singleton, List.not_mem_nil, or_false] at hst
      rcases hst with rfl | rfl | rfl | rfl
      · exact h0
      · rw [h1]
      · rw [h2, h1]
      · show (syncQueue (syncPermissions { s with isApplyingUpdate := true } r).1 r).1.isApplyingUpdate = true
        rw [h2, h1]
    · rw [reconTrace, htr] at hst
      have h3 : ({ (syncQueue (syncPermissions { s with isApplyingUpdate := true } r).1 r).1
                    with player := p } : SyncState).isApplyingUpdate = true := by
        show (syncQueue (syncPermissions { s with isApplyingUpdate := true } r).1 r).1.isApplyingUpdate = true
        rw [h2, h1]
      have h4 := (syncPosition_state
        ({ (syncQueue (syncPermissions { s with isApplyingUpdate := true } r).1 r).1
            with player := p }) r).2.2.2.1
      have h5 := (syncPlayPause_state
        (syncPosition ({ (syncQueue (syncPermissions { s with isApplyingUpdate := true } r).1 r).1
            with player := p }) r).1 r pf).2.2.2.1
      simp only [List.mem_cons, List.mem_singleton, List.not_mem_nil, or_false] at hst
      rcases hst with rfl | rfl | rfl | rfl | rfl | rfl
      · exact h0
      · rw [h1]
      · rw [h2, h1]
      · exact h3
      · rw [h4]; exact h3
      · rw [h5, h4]; exact h3
  refine ⟨broadcast_noop_of_guard, ?_, ?_, ?_⟩
  · intro s r ptf pf st hst
    exact ⟨hguards s r ptf pf st hst,
           fun d => broadcast_noop_of_guard st d (hguards s r ptf pf st hst)⟩
  · intro s r ptf pf
    obtain ⟨p, e, htr | htr⟩ :=
      syncTrack_shape (syncQueue (syncPermissions { s with isApplyingUpdate := true } r).1 r).1 r ptf
    · rw [reconTrace, applySessionState, htr]
      simp
    · rw [reconTrace, applySessionState, htr]
      simp
  · intro s q i d
    exact broadcast_noop_of_guard _ d rfl

theorem guard_suppresses_rebroadcast_witness :
    broadcastStateUpdate
        { player := { currentTrack := none, queue := [], currentQueueIndex := 0,
                      paused := true, currentTime := 0 },
          activeSessionId := some "s1", isHost := false, isApplyingUpdate := true,
          allowParticipantQueueing := true, subscribed := true }
        { current_track := none, playback_state := some "playing", position := some 3,
          queue := none, allow_participant_queueing := none }
      = ({ player := { currentTrack := none, queue := [], currentQueueIndex := 0,
                       paused := true, currentTime := 0 },
           activeSessionId := some "s1", isHost := false, isApplyingUpdate := true,
           allowParticipantQueueing := true, subscribed := true }, []) :=
  guard_suppresses_rebroadcast.1 _ _ rfl

lemma syncPermissions_effects (s : SyncState) (r : SessionRecord) :
    ∀ e ∈ (syncPermissions s r).2, ∃ n, e = Eff.uiEvent n := by
  cases hm : r.allow_participant_queueing with
  | none => simp [syncPermissions, hm]
  | some b => by_cases hb : s.allowParticipantQueueing = b <;> simp [syncPermissions, hm, hb]

lemma syncQueue_effects (s : SyncState) (r : SessionRecord) :
    ∀ e ∈ (syncQueue s r).2, ∃ q i, e = Eff.setQueueCall q i := by
  cases hm : r.queue with
  | none => simp [syncQueue, hm]
  | some q => by_cases hq : q = s.player.queue <;> simp [syncQueue, hm, hq]

lemma syncPlayPause_effects (s : SyncState) (r : SessionRecord) (pf : Bool) :
    ∀ e ∈ (syncPlayPause s r pf).2,
      e = Eff.playCall ∨ e = Eff.playFailed ∨ e = Eff.pauseCall := by
  by_cases hsp : r.playback_state = "playing"
  · by_cases hp : s.player.paused <;> cases pf <;> simp [syncPlayPause, hsp, hp]
  · by_cases hp : s.player.paused <;> simp [syncPlayPause, hsp, hp]

lemma syncPosition_eq (s : SyncState) (r : SessionRecord) (p : ℚ)
    (hp : r.position = some p) :
    syncPosition s r
      = if |s.player.currentTime - p| > 2
        then ({ s with player := { s.player with currentTime := p } }, [Eff.seekCall p])
        else (s, []) := by
  simp [syncPosition, hp]

/-- When the record's track does not differ by id from the loaded one (or
is absent), the track-change step is skipped entirely and reconciliation is
permissions, queue, position and play/pause sync in sequence. -/
lemma applySessionState_of_sameTrack (s : SyncState) (r : SessionRecord) (ptf pf : Bool)
    (htr : ∀ t, r.current_track = some t →
        ∃ lt, s.player.currentTrack = some lt ∧ lt.id = t.id) :
    applySessionState s r ptf pf
      = ({ (syncPlayPause (syncPosition (syncQueue (syncPermissions
              { s with isApplyingUpdate := true } r).1 r).1 r).1 r pf).1
           with isApplyingUpdate := false },
         (syncPermissions { s with isApplyingUpdate := true } r).2
           ++ (syncQueue (syncPermissions { s with isApplyingUpdate := true } r).1 r).2
           ++ []
           ++ (syncPosition (syncQueue (syncPermissions
                 { s with isApplyingUpdate := true } r).1 r).1 r).2
           ++ (syncPlayPause (syncPosition (syncQueue (syncPermissions
                 { s with isApplyingUpdate := true } r).1 r).1 r).1 r pf).2) := by
  have hct : (syncQueue (syncPermissions { s with isApplyingUpdate := true } r).1 r).1.player.currentTrack
      = s.player.currentTrack := by
    rw [(syncQueue_state _ r).1, (syncPermissions_state _ r).1]
  have hok : syncTrack (syncQueue (syncPermissions
        { s with isApplyingUpdate := true } r).1 r).1 r ptf
      = .ok ((syncQueue (syncPermissions { s with isApplyingUpdate := true } r).1 r).1, []) := by
    apply syncTrack_of_sameTrack
    intro t ht
    obtain ⟨lt, hlt, hid⟩ := htr t ht
    exact ⟨lt, by rw [hct]; exact hlt, hid⟩
  simp only [applySessionState]
  rw [hok]

/-- Claim C3: during reconciliation of a record whose `position` field is a
number, with no concurrent track change, local playback is force-seeked to
the remote position exactly when the local/remote difference strictly
exceeds the 2-second drift threshold; otherwise the local position is left
unchanged. -/
theorem drift_threshold_correction (s : SyncState) (r : SessionRecord) (p : ℚ)
    (ptf pf : Bool) (hp : r.position = some p)
    (htr : ∀ t, r.current_track = some t →
        ∃ lt, s.player.currentTrack = some lt ∧ lt.id = t.id) :
    (Eff.seekCall p ∈ (applySessionState s r ptf pf).2 ↔ |s.player.currentTime - p| > 2)
    ∧ (applySessionState s r ptf pf).1.player.currentTime
        = (if |s.player.currentTime - p| > 2 then p else s.player.currentTime) := by
  rw [applySessionState_of_sameTrack s r ptf pf htr]
  have hc2 : (syncQueue (syncPermissions { s with isApplyingUpdate := true } r).1 r).1.player.currentTime
      = s.player.currentTime := by
    rw [(syncQueue_state _ r).2.1, (syncPermissions_state _ r).1]
  have hpos := syncPosition_eq (syncQueue (syncPermissions
      { s with isApplyingUpdate := true } r).1 r).1 r p hp
  rw [hc2] at hpos
  have hnot1 : ∀ e ∈ (syncPermissions { s with isApplyingUpdate := true } r).2,
      e ≠ Eff.seekCall p := by
    intro e he
    obtain ⟨n, rfl⟩ := syncPermissions_effects _ r e he
    simp
  have hnot2 : ∀ e ∈ (syncQueue (syncPermissions
      { s with isApplyingUpdate := true } r).1 r).2, e ≠ Eff.seekCall p := by
    intro e he
    obtain ⟨q, i, rfl⟩ := syncQueue_effects _ r e he
    simp
  by_cases hgt : |s.player.currentTime - p| > 2
  · rw [hpos, if_pos hgt]
    constructor
    · simp [hgt]
    · rw [(syncPlayPause_state _ r pf).2.1]
      simp [hgt]
  · rw [hpos, if_neg hgt]
    have hnot5 : ∀ e ∈ (syncPlayPause (syncQueue (syncPermissions
        { s with isApplyingUpdate := true } r).1 r).1 r pf).2, e ≠ Eff.seekCall p := by
      intro e he
      rcases syncPlayPause_effects _ r pf e he with rfl | rfl | rfl <;> simp
    constructor
    · constructor
      · intro hmem
        simp only [List.append_nil, List.mem_append] at hmem
        rcases hmem with (hm | hm) | hm
        · exact absurd rfl (hnot1 _ hm)
        · exact absurd rfl (hnot2 _ hm)
        · exact absurd rfl (hnot5 _ hm)
      · intro h
        exact absurd h hgt
    · rw [(syncPlayPause_state _ r pf).2.1, if_neg hgt, hc2]

/-- Fixture for the drift-correction witness: local playback at 10 seconds,
no track loaded. -/
def stateDrift : SyncState :=
  { player := { currentTrack := none, queue := [], currentQueueIndex := 0,
                paused := true, currentTime := 10 },
    activeSessionId := some "s1", isHost := false, isApplyingUpdate := false,
    allowParticipantQueueing := true, subscribed := true }

/-- Fixture for the drift-correction witness: a record at position 13.5
(i.e. 27/2) seconds with no track. -/
def recDrift : SessionRecord :=
  { id := "s1", host := "h", current_track := none, playback_state := "paused",
    position := some (27 / 2), queue := none, allow_participant_queueing := none,
    participants := ["h"], token := "tok" }

theorem drift_threshold_correction_witness :
    (Eff.seekCall (27 / 2) ∈ (applySessionState stateDrift recDrift false false).2
       ↔ |stateDrift.player.currentTime - 27 / 2| > 2)
    ∧ (applySessionState stateDrift recDrift false false).1.player.currentTime
        = (if |stateDrift.player.currentTime - 27 / 2| > 2 then (27 / 2 : ℚ)
           else stateDrift.player.currentTime) :=
  drift_threshold_correction stateDrift recDrift (27 / 2) false false rfl
    (fun _ h => nomatch h)

/-- Claim C9: reconciliation and the outbound path absorb their failures —
`applySessionState` clears the applying-update guard on every exit path
(including the path where `playTrackFromQueue` rejects), `broadcastStateUpdate`
never mutates local state whatever the store does, and a rejected resume
`audio.play()` is caught, leaving playback paused while the procedure still
completes with the guard cleared. -/
theorem reconciliation_absorbs_failures :
    (∀ (s : SyncState) (r : SessionRecord) (ptf pf : Bool),
        (applySessionState s r ptf pf).1.isApplyingUpdate = false)
    ∧ (∀ (s : SyncState) (d : UpdateData), (broadcastStateUpdate s d).1 = s)
    ∧ (∀ (s : SyncState) (r : SessionRecord) (ptf : Bool),
        s.player.paused = true → r.playback_state = "playing" →
        (∀ t, r.current_track = some t →
            ∃ lt, s.player.currentTrack = some lt ∧ lt.id = t.id) →
        (applySessionState s r ptf true).1.player.paused = true
        ∧ Eff.playFailed ∈ (applySessionState s r ptf true).2) := by
  refine ⟨?_, ?_, ?_⟩
  · intro s r ptf pf
    obtain ⟨p, e, htr | htr⟩ := syncTrack_shape (syncQueue (syncPermissions
        { s with isApplyingUpdate := true } r).1 r).1 r ptf
    · simp only [applySessionState]
      rw [htr]
    · simp only [applySessionState]
      rw [htr]
  · intro s d
    cases hsid : s.activeSessionId with
    | none => simp [broadcastStateUpdate, hsid]
    | some sid => by_cases hg : s.isApplyingUpdate <;> simp [broadcastStateUpdate, hsid, hg]
  · intro s r ptf hpaused hplaying htr
    rw [applySessionState_of_sameTrack s r ptf true htr]
    have hpaused2 : (syncQueue (syncPermissions
        { s with isApplyingUpdate := true } r).1 r).1.player.paused = true := by
      rw [(syncQueue_state _ r).2.2.1, (syncPermissions_state _ r).1]
      exact hpaused
    have hpaused4 : (syncPosition (syncQueue (syncPermissions
        { s with isApplyingUpdate := true } r).1 r).1 r).1.player.paused = true := by
      rw [(syncPosition_state _ r).2.1]
      exact hpaused2
    have hpp : syncPlayPause (syncPosition (syncQueue (syncPermissions
          { s with isApplyingUpdate := true } r).1 r).1 r).1 r true
        = ((syncPosition (syncQueue (syncPermissions
             { s with isApplyingUpdate := true } r).1 r).1 r).1, [Eff.playFailed]) := by
      simp [syncPlayPause, hplaying, hpaused4]
    rw [hpp]
    exact ⟨hpaused4, by simp⟩

/-- Fixture for the failure-absorption witness: a paused player. -/
def statePausedFx : SyncState :=
  { player := { currentTrack := none, queue := [], currentQueueIndex := 0,
                paused := true, currentTime := 0 },
    activeSessionId := some "s1", isHost := false, isApplyingUpdate := false,
    allowParticipantQueueing := true, subscribed := true }

/-- Fixture for the failure-absorption witness: a record requesting
`playing` with no track. -/
def recPlayingFx : SessionRecord :=
  { id := "s1", host := "h", current_track := none, playback_state := "playing",
    position := none, queue := none, allow_participant_queueing := none,
    participants := ["h"], token := "tok" }

theorem reconciliation_absorbs_failures_witness :
    (applySessionState statePausedFx recPlayingFx false true).1.player.paused = true
    ∧ Eff.playFailed ∈ (applySessionState statePausedFx recPlayingFx false true).2 :=
  reconciliation_absorbs_failures.2.2 statePausedFx recPlayingFx false rfl rfl
    (fun _ h => nomatch h)

/-! ### Track-change reconciliation (claim C4) -/

lemma trackLookupIndex_eq (s' : SyncState) (r : SessionRecord) (tid : String)
    (h : s'.player.queue = effectiveLookupQueue s' r) :
    trackLookupIndex s' r tid
      = List.findIdx? (fun tr => tr.id = tid) (effectiveLookupQueue s' r) := by
  cases hq : r.queue with
  | none => simp [trackLookupIndex, effectiveLookupQueue, hq]
  | some q =>
    have hq' : effectiveLookupQueue s' r = q := by simp [effectiveLookupQueue, hq]
    rw [hq'] at h ⊢
    cases hidx : List.findIdx? (fun tr => decide (tr.id = tid)) q with
    | some i => simp [trackLookupIndex, hq, hidx]
    | none => simp [trackLookupIndex, hq, hidx, h]

lemma syncTrack_cond_true (s' : SyncState) (t : Track)
    (hdiff : ∀ lt, s'.player.currentTrack = some lt → ¬(lt.id = t.id)) :
    (match s'.player.currentTrack with
     | none => true
     | some lt => !(lt.id = t.id : Bool)) = true := by
  cases hct : s'.player.currentTrack with
  | none => rfl
  | some lt => simp [hdiff lt hct]

/-- Claim C4, amended: when the incoming `currentTrack` differs by id from
the loaded one, the lookup consults the delivered queue and, only when no
queue was delivered, the (then unchanged) local queue — the delivered queue
having already replaced the local one before the fallback lookup runs.
When the id is found there, the engine plays that index from position 0;
otherwise it replaces the queue with the singleton `[currentTrack]` and
plays index 0. -/
theorem trackChange_reconciliation (s : SyncState) (r : SessionRecord) (t : Track)
    (pf : Bool) (hct : r.current_track = some t)
    (hdiff : ∀ lt, s.player.currentTrack = some lt → ¬(lt.id = t.id)) :
    (∀ i, List.findIdx? (fun tr => tr.id = t.id) (effectiveLookupQueue s r) = some i →
        Eff.playTrackCall i 0 ∈ (applySessionState s r false pf).2
        ∧ (applySessionState s r false pf).1.player.queue = effectiveLookupQueue s r)
    ∧ (List.findIdx? (fun tr => tr.id = t.id) (effectiveLookupQueue s r) = none →
        (applySessionState s r false pf).1.player.queue = [t]
        ∧ Eff.setQueueCall [t] 0 ∈ (applySessionState s r false pf).2
        ∧ Eff.playTrackCall 0 0 ∈ (applySessionState s r false pf).2) := by
  have hplayer1 : (syncPermissions { s with isApplyingUpdate := true } r).1.player
      = s.player := (syncPermissions_state _ r).1
  have hq2 : (syncQueue (syncPermissions { s with isApplyingUpdate := true } r).1 r).1.player.queue
      = effectiveLookupQueue s r := by
    rw [(syncQueue_state _ r).2.2.2.1]
    simp [effectiveLookupQueue, hplayer1]
  have hct2 : (syncQueue (syncPermissions { s with isApplyingUpdate := true } r).1 r).1.player.currentTrack
      = s.player.currentTrack := by
    rw [(syncQueue_state _ r).1, hplayer1]
  have helq : effectiveLookupQueue (syncQueue (syncPermissions
      { s with isApplyingUpdate := true } r).1 r).1 r = effectiveLookupQueue s r := by
    cases hq : r.queue with
    | none => simp [effectiveLookupQueue, hq, hq2]
    | some q => simp [effectiveLookupQueue, hq]
  have hlook : trackLookupIndex (syncQueue (syncPermissions
        { s with isApplyingUpdate := true } r).1 r).1 r t.id
      = List.findIdx? (fun tr => tr.id = t.id) (effectiveLookupQueue s r) := by
    rw [trackLookupIndex_eq _ r t.id (by rw [hq2, helq]), helq]
  have hcond := syncTrack_cond_true (syncQueue (syncPermissions
      { s with isApplyingUpdate := true } r).1 r).1 t
    (fun lt hlt => hdiff lt (by rw [← hct2]; exact hlt))
  constructor
  · intro i hfound
    have hst : syncTrack (syncQueue (syncPermissions
          { s with isApplyingUpdate := true } r).1 r).1 r false
        = .ok ({ (syncQueue (syncPermissions { s with isApplyingUpdate := true } r).1 r).1
                  with player := (syncQueue (syncPermissions
                    { s with isApplyingUpdate := true } r).1 r).1.player.playTrackFromQueue i 0 },
               [.playTrackCall i 0]) := by
      rw [syncTrack]
      rw [hct]
      simp [hcond, hlook, hfound]
    simp only [applySessionState]
    rw [hst]
    constructor
    · simp
    · rw [(syncPlayPause_state _ r pf).2.2.1, (syncPosition_state _ r).2.2.1]
      show ((syncQueue (syncPermissions
          { s with isApplyingUpdate := true } r).1 r).1.player.playTrackFromQueue i 0).queue
        = effectiveLookupQueue s r
      rw [Player.playTrackFromQueue]
      exact hq2
  · intro hnone
    have hst : syncTrack (syncQueue (syncPermissions
          { s with isApplyingUpdate := true } r).1 r).1 r false
        = .ok ({ (syncQueue (syncPermissions { s with isApplyingUpdate := true } r).1 r).1
                  with player := ((syncQueue (syncPermissions
                    { s with isApplyingUpdate := true } r).1 r).1.player.setQueue
                      [t] 0).playTrackFromQueue 0 0 },
               [.setQueueCall [t] 0, .playTrackCall 0 0]) := by
      rw [syncTrack]
      rw [hct]
      simp [hcond, hlook, hnone]
    simp only [applySessionState]
    rw [hst]
    refine ⟨?_, by simp, by simp⟩
    rw [(syncPlayPause_state _ r pf).2.2.1, (syncPosition_state _ r).2.2.1]
    rfl

/-- Fixture for the C4 counterexample: local queue `[X, T]` with `X`
loaded. -/
def stateTrackCx : SyncState :=
  { player := { currentTrack := some ⟨"x", "X"⟩, queue := [⟨"x", "X"⟩, ⟨"t", "T"⟩],
                currentQueueIndex := 1, paused := true, currentTime := 0 },
    activeSessionId := some "s1", isHost := false, isApplyingUpdate := false,
    allowParticipantQueueing := true, subscribed := true }

/-- Fixture for the C4 counterexample: an inbound record delivering the
queue `[A]` together with `currentTrack = T`. -/
def recTrackCx : SessionRecord :=
  { id := "s1", host := "h", current_track := some ⟨"t", "T"⟩,
    playback_state := "paused", position := none, queue := some [⟨"a", "A"⟩],
    allow_participant_queueing := none, participants := ["h"], token := "tok" }

/-- Claim C4 counterexample: the incoming track `T` is absent from the
delivered queue `[A]` but present (at index 1) in the previously-local
queue `[X, T]`; the claim then demands that the engine play that queue
index, yet the code — whose fallback lookup runs against the local queue
only after it has been replaced by `[A]` — takes the singleton fallback:
it replaces the queue with `[T]` and plays index 0, never index 1. -/
theorem trackChange_previousQueue_counterexample :
    List.findIdx? (fun tr => tr.id = "t") [(⟨"a", "A"⟩ : Track)] = none
    ∧ List.findIdx? (fun tr => tr.id = "t") stateTrackCx.player.queue = some 1
    ∧ (applySessionState stateTrackCx recTrackCx false false).1.player.queue
        = [⟨"t", "T"⟩]
    ∧ Eff.playTrackCall 0 0 ∈ (applySessionState stateTrackCx recTrackCx false false).2
    ∧ Eff.playTrackCall 1 0 ∉ (applySessionState stateTrackCx recTrackCx false false).2 := by
  decide

theorem trackChange_reconciliation_witness :
    Eff.playTrackCall 1 0 ∈
      (applySessionState
        { player := { currentTrack := some ⟨"x", "X"⟩, queue := [], currentQueueIndex := 0,
                      paused := true, currentTime := 0 },
          activeSessionId := some "s1", isHost := false, isApplyingUpdate := false,
          allowParticipantQueueing := true, subscribed := true }
        { id := "s1", host := "h", current_track := some ⟨"t", "T"⟩,
          playback_state := "paused", position := none,
          queue := some [⟨"a", "A"⟩, ⟨"t", "T"⟩], allow_participant_queueing := none,
          participants := ["h"], token := "tok" } false false).2 :=
  ((trackChange_reconciliation _ _ ⟨"t", "T"⟩ false rfl
      (fun lt hlt => by cases hlt; decide)).1 1 (by decide)).1

/-- Claim C10: each client holds at most one active session —
`startSession` with an active session performs no create and no
subscription and returns `undefined`; `joinSession` with the already-active
id is a no-op; and `joinSession` with a different id runs the full
`leaveSession` teardown (store departure, unsubscribe, handle cleared)
before any join traffic. -/
theorem single_active_session :
    (∀ (s : SyncState) (a nid : String), s.activeSessionId = some a →
        syncStartSession s nid = (s, [], none))
    ∧ (∀ (s : SyncState) (sid : String) (found : Option SessionRecord) (ptf pf : Bool),
        s.activeSessionId = some sid →
        syncJoinSession s sid found ptf pf = (s, [], none))
    ∧ (∀ (s : SyncState) (a sid' : String) (found : Option SessionRecord) (ptf pf : Bool),
        s.activeSessionId = some a → a ≠ sid' →
        List.take (syncLeaveSession s).2.length (syncJoinSession s sid' found ptf pf).2.1
            = (syncLeaveSession s).2
        ∧ (syncLeaveSession s).1.activeSessionId = none
        ∧ (syncLeaveSession s).1.isHost = false
        ∧ (syncLeaveSession s).1.subscribed = false
        ∧ Eff.storeLeave a ∈ (syncLeaveSession s).2
        ∧ (s.subscribed = true → Eff.unsubscribed ∈ (syncLeaveSession s).2)
        ∧ (∀ rec', found = some rec' →
             Eff.storeJoin sid' ∈ (syncJoinSession s sid' found ptf pf).2.1)) := by
  refine ⟨?_, ?_, ?_⟩
  · intro s a nid h
    simp [syncStartSession, h]
  · intro s sid found ptf pf h
    simp [syncJoinSession, h]
  · intro s a sid' found ptf pf h hne
    have hif : ¬(s.activeSessionId = some sid') := by
      rw [h]
      simp [hne]
    refine ⟨?_, by simp [syncLeaveSession, h], by simp [syncLeaveSession, h],
            by simp [syncLeaveSession, h], by simp [syncLeaveSession, h],
            fun hsub => by simp [syncLeaveSession, h, hsub], ?_⟩
    · cases hfound : found with
      | none =>
        simp [syncJoinSession, h, hne, hfound, List.take_length]
      | some rec' =>
        have hif' : ¬(some a = some sid') := by simp [hne]
        simp only [syncJoinSession, h, if_neg hif', hfound]
        rw [List.append_assoc, List.append_assoc]
        exact List.take_left _ _
    · intro rec' hfound
      simp [syncJoinSession, h, hne, hfound]

theorem single_active_session_witness :
    syncStartSession
        { player := { currentTrack := none, queue := [], currentQueueIndex := 0,
                      paused := true, currentTime := 0 },
          activeSessionId := some "s1", isHost := true, isApplyingUpdate := false,
          allowParticipantQueueing := true, subscribed := true } "s2"
      = ({ player := { currentTrack := none, queue := [], currentQueueIndex := 0,
                       paused := true, currentTime := 0 },
           activeSessionId := some "s1", isHost := true, isApplyingUpdate := false,
           allowParticipantQueueing := true, subscribed := true }, [], none) :=
  single_active_session.1 _ "s1" "s2" rfl

end Jam
